import Mathlib

/-!
Verification of the PCI root-complex configuration-access subsystem
(`pci/src/bus.rs`): a shallow embedding of `PciBus`, `PciConfigIo`,
`PciConfigMmio` and the CAM/ECAM address decoders, with the attached
devices modelled abstractly through the `PciDevice` trait contract.

Machine integers (`u32`, `u64`, `u8`) are embedded as `Nat` with explicit
`% 2 ^ 32` where Rust wrapping matters; byte slices are `List Nat` whose
elements are below 256.
-/

/-- `BarReprogrammingParams` (from `pci/src/device.rs`): an in-flight BAR
move produced by a device's `write_config_register`.  The region type is
collapsed to a `Nat` tag, which is all the bus code inspects. -/
structure BarReprogrammingParams where
  old_base : Nat
  new_base : Nat
  len : Nat
  region_type : Nat
deriving DecidableEq, Repr

/-- The variants of `PciRootError` that the `PciBus` slot operations
produce (`bus.rs`, `enum PciRootError`). -/
inductive PciRootError where
  | NoPciDeviceSlotAvailable : PciRootError
  | InvalidPciDeviceSlot : Nat → PciRootError
  | AlreadyInUsePciDeviceSlot : Nat → PciRootError
deriving DecidableEq, Repr

/-- The `PciDevice` trait contract (`pci/src/device.rs`): a device of
state type `D` offers `read_config_register` (a `u32` per DWORD index)
and `write_config_register`, which returns the mutated device state, a
list of BAR-reprogramming requests, and an optional barrier
(`Option<Arc<Barrier>>`, the barrier handle modelled as a `Nat` tag).
Argument order follows the trait: register index, sub-DWORD offset,
data bytes. -/
structure DeviceModel (D : Type) where
  read_config_register : D → Nat → Nat
  write_config_register : D → Nat → Nat → List Nat →
    D × List BarReprogrammingParams × Option Nat

/-- `shift_and_mask` (bus.rs): `((value >> offset) & mask) as usize`. -/
def shift_and_mask (value offset mask : Nat) : Nat :=
  (value >>> offset) &&& mask

/-- `parse_mmio_config_address` (bus.rs): ECAM offset to
(bus, device, function, register). -/
def parse_mmio_config_address (config_address : Nat) : Nat × Nat × Nat × Nat :=
  (shift_and_mask config_address 20 0x00ff,
   shift_and_mask config_address 15 0x1f,
   shift_and_mask config_address 12 0x07,
   shift_and_mask config_address 2 0x3ff)

/-- `parse_io_config_address` (bus.rs): CONFIG_ADDRESS register to
(bus, device, function, register). -/
def parse_io_config_address (config_address : Nat) : Nat × Nat × Nat × Nat :=
  (shift_and_mask config_address 16 0x00ff,
   shift_and_mask config_address 11 0x1f,
   shift_and_mask config_address 8 0x07,
   shift_and_mask config_address 2 0x3f)

/-- `NUM_DEVICE_IDS` (bus.rs). -/
def NUM_DEVICE_IDS : Nat := 32

/-- The `HashMap<u32, Arc<Mutex<dyn PciDevice>>>` of `PciBus.devices`,
embedded as an association list with unique keys.  An entry is
`(slot key, Arc identity tag, device state)`; the tag models the
`Arc` allocation identity that `Arc::ptr_eq` compares. -/
def mapGet {D : Type} : List (Nat × Nat × D) → Nat → Option (Nat × D)
  | [], _ => none
  | (k, t, d) :: rest, key => if key = k then some (t, d) else mapGet rest key

/-- `HashMap::insert`: replace the entry at the key or add a fresh one. -/
def mapInsert {D : Type} (key tag : Nat) (dev : D) :
    List (Nat × Nat × D) → List (Nat × Nat × D)
  | [] => [(key, tag, dev)]
  | (k, t, d) :: rest =>
    if key = k then (key, tag, dev) :: rest
    else (k, t, d) :: mapInsert key tag dev rest

/-- In-place mutation through a shared `Arc<Mutex<_>>` handle: every
alias of the same handle observes the new device state. -/
def mapSetByTag {D : Type} (tag : Nat) (dev : D)
    (l : List (Nat × Nat × D)) : List (Nat × Nat × D) :=
  l.map fun e => if e.2.1 = tag then (e.1, tag, dev) else e

/-- `PciBus` (bus.rs): the slot-to-device map and the 32-entry
slot-occupancy table.  The `DeviceRelocation` collaborator is external
(its `move_bar` calls are reported in the operations' results instead). -/
structure PciBus (D : Type) where
  devices : List (Nat × Nat × D)
  device_ids : List Bool
deriving DecidableEq

/-- `PciBus::new`: insert the host bridge (handle `root_tag`, state
`pci_root`) at slot 0 and mark slot 0 occupied. -/
def PciBus.new {D : Type} (root_tag : Nat) (pci_root : D) : PciBus D :=
  { devices := mapInsert 0 root_tag pci_root []
    device_ids := (List.replicate NUM_DEVICE_IDS false).set 0 true }

/-- `PciBus::add_device`: `self.devices.insert(device_id, device); Ok(())`. -/
def PciBus.add_device {D : Type} (bus : PciBus D) (device_id tag : Nat)
    (device : D) : Except PciRootError Unit × PciBus D :=
  (Except.ok (), { bus with devices := mapInsert device_id tag device bus.devices })

/-- `PciBus::remove_by_device`: retain the entries whose handle is not
`Arc::ptr_eq` to the given one. -/
def PciBus.remove_by_device {D : Type} (bus : PciBus D) (tag : Nat) :
    Except PciRootError Unit × PciBus D :=
  (Except.ok (), { bus with devices := bus.devices.filter fun e => e.2.1 != tag })

/-- The scan loop of `PciBus::next_device_id`: find the first `false`
flag, set it, and report its index. -/
def nextFree : List Bool → Option (Nat × List Bool)
  | [] => none
  | b :: rest =>
    if b then
      match nextFree rest with
      | some (i, rest') => some (i + 1, b :: rest')
      | none => none
    else some (0, true :: rest)

/-- `PciBus::next_device_id`. -/
def PciBus.next_device_id {D : Type} (bus : PciBus D) :
    Except PciRootError Nat × PciBus D :=
  match nextFree bus.device_ids with
  | some (idx, ids') => (Except.ok idx, { bus with device_ids := ids' })
  | none => (Except.error PciRootError.NoPciDeviceSlotAvailable, bus)

/-- `PciBus::get_device_id`. -/
def PciBus.get_device_id {D : Type} (bus : PciBus D) (id : Nat) :
    Except PciRootError Unit × PciBus D :=
  if id < NUM_DEVICE_IDS then
    if !(bus.device_ids.getD id false) then
      (Except.ok (), { bus with device_ids := bus.device_ids.set id true })
    else (Except.error (PciRootError.AlreadyInUsePciDeviceSlot id), bus)
  else (Except.error (PciRootError.InvalidPciDeviceSlot id), bus)

/-- `PciBus::put_device_id`. -/
def PciBus.put_device_id {D : Type} (bus : PciBus D) (id : Nat) :
    Except PciRootError Unit × PciBus D :=
  if id < NUM_DEVICE_IDS then
    (Except.ok (), { bus with device_ids := bus.device_ids.set id false })
  else (Except.error (PciRootError.InvalidPciDeviceSlot id), bus)

/-- Rust `u32` left shift as compiled in release mode: the shift amount
is reduced modulo the bit width and the result wraps modulo `2 ^ 32`
(in debug mode a shift amount of 32 or more panics instead). -/
def rustShl32 (x s : Nat) : Nat := (x <<< (s % 32)) % 2 ^ 32

/-- Bitwise NOT on `u32`: for `m ≤ 0xffff_ffff`, `!m = 0xffff_ffff - m`. -/
def not32 (m : Nat) : Nat := 0xffffffff - m

/-- `PciConfigIo` (bus.rs): the CAM façade, a 32-bit `config_address`
latch plus the shared `PciBus`. -/
structure PciConfigIo (D : Type) where
  config_address : Nat
  pci_bus : PciBus D
deriving DecidableEq

/-- `PciConfigIo::config_space_read`. -/
def PciConfigIo.config_space_read {D : Type} (M : DeviceModel D)
    (io : PciConfigIo D) : Nat :=
  let enabled := io.config_address &&& 0x80000000 ≠ 0
  if ¬ enabled then 0xffffffff
  else
    let p := parse_io_config_address (io.config_address &&& 0x7fffffff)
    let bus := p.1
    let device := p.2.1
    let function := p.2.2.1
    let register := p.2.2.2
    if bus ≠ 0 then 0xffffffff
    else if function > 0 then 0xffffffff
    else
      match mapGet io.pci_bus.devices device with
      | none => 0xffffffff
      | some (_, d) => M.read_config_register d register

/-- `PciConfigIo::config_space_write`.  Besides the mutated façade state
it returns the optional barrier handed back to the caller and, in place
of the external `device_reloc.move_bar` calls, the list of BAR moves
that were requested. -/
def PciConfigIo.config_space_write {D : Type} (M : DeviceModel D)
    (io : PciConfigIo D) (offset : Nat) (data : List Nat) :
    PciConfigIo D × Option Nat × List BarReprogrammingParams :=
  if offset + data.length > 4 then (io, none, [])
  else
    let enabled := io.config_address &&& 0x80000000 ≠ 0
    if ¬ enabled then (io, none, [])
    else
      let p := parse_io_config_address (io.config_address &&& 0x7fffffff)
      let bus := p.1
      let device := p.2.1
      let register := p.2.2.2
      if bus ≠ 0 then (io, none, [])
      else
        match mapGet io.pci_bus.devices device with
        | none => (io, none, [])
        | some (tag, d) =>
          let w := M.write_config_register d register offset data
          let bar_reprogram := w.2.1
          let ret := w.2.2
          ({ io with pci_bus :=
              { io.pci_bus with devices := mapSetByTag tag w.1 io.pci_bus.devices } },
           ret, bar_reprogram)

/-- `PciConfigIo::set_config_address`.  In the two-byte arm the source
shifts mask and value by `offset * 16` (not `offset * 8`); `rustShl32`
reproduces the `u32` shift including its wrap-around of the shift
amount at 32. -/
def PciConfigIo.set_config_address {D : Type} (io : PciConfigIo D)
    (offset : Nat) (data : List Nat) : PciConfigIo D :=
  if offset + data.length > 4 then io
  else
    match data with
    | [b0] =>
      let mask := rustShl32 0x000000ff (offset * 8)
      let value := rustShl32 b0 (offset * 8)
      { io with config_address := (io.config_address &&& not32 mask) ||| value }
    | [b0, b1] =>
      let mask := rustShl32 0x0000ffff (offset * 16)
      let value := rustShl32 ((b1 <<< 8) ||| b0) (offset * 16)
      { io with config_address := (io.config_address &&& not32 mask) ||| value }
    | [b0, b1, b2, b3] =>
      let mask := 0xffffffff
      let value := b0 ||| (b1 <<< 8) ||| (b2 <<< 16) ||| (b3 <<< 24)
      { io with config_address := (io.config_address &&& not32 mask) ||| value }
    | _ => io

/-- `<PciConfigIo as BusDevice>::read`: fill a buffer of `len` bytes from
the latch (offsets 0–3), the data window (offsets 4–7) or `0xffff_ffff`;
accesses crossing the DWORD boundary read as `0xff` bytes. -/
def PciConfigIo.busRead {D : Type} (M : DeviceModel D) (io : PciConfigIo D)
    (offset len : Nat) : List Nat :=
  let value :=
    if offset ≤ 3 then io.config_address
    else if offset ≤ 7 then io.config_space_read M
    else 0xffffffff
  let start := offset % 4
  if start + len ≤ 4 then
    (List.range len).map fun i => (value >>> ((start + i) * 8)) % 256
  else List.replicate len 0xff

/-- `<PciConfigIo as BusDevice>::write`: offsets 0–3 go to the address
latch, offsets 4–7 to `config_space_write` (with the data-window-relative
offset `o - 4`). -/
def PciConfigIo.busWrite {D : Type} (M : DeviceModel D) (io : PciConfigIo D)
    (offset : Nat) (data : List Nat) :
    PciConfigIo D × Option Nat × List BarReprogrammingParams :=
  if offset ≤ 3 then (io.set_config_address offset data, none, [])
  else if offset ≤ 7 then io.config_space_write M (offset - 4) data
  else (io, none, [])

/-- `PciConfigMmio` (bus.rs): the ECAM façade. -/
structure PciConfigMmio (D : Type) where
  pci_bus : PciBus D
deriving DecidableEq

/-- `PciConfigMmio::config_space_read`. -/
def PciConfigMmio.config_space_read {D : Type} (M : DeviceModel D)
    (m : PciConfigMmio D) (config_address : Nat) : Nat :=
  let p := parse_mmio_config_address config_address
  let bus := p.1
  let device := p.2.1
  let register := p.2.2.2
  if bus ≠ 0 then 0xffffffff
  else
    match mapGet m.pci_bus.devices device with
    | none => 0xffffffff
    | some (_, d) => M.read_config_register d register

/-- `PciConfigMmio::config_space_write`; the barrier returned by the
device is discarded (`let (bar_reprogram, _) = …`), so only the mutated
state and the requested BAR moves come back. -/
def PciConfigMmio.config_space_write {D : Type} (M : DeviceModel D)
    (m : PciConfigMmio D) (config_address offset : Nat) (data : List Nat) :
    PciConfigMmio D × List BarReprogrammingParams :=
  if offset + data.length > 4 then (m, [])
  else
    let p := parse_mmio_config_address config_address
    let bus := p.1
    let device := p.2.1
    let register := p.2.2.2
    if bus ≠ 0 then (m, [])
    else
      match mapGet m.pci_bus.devices device with
      | none => (m, [])
      | some (tag, d) =>
        let w := M.write_config_register d register offset data
        ({ m with pci_bus :=
            { m.pci_bus with devices := mapSetByTag tag w.1 m.pci_bus.devices } },
         w.2.1)

/-- `<PciConfigMmio as BusDevice>::read`: DWORD-straddling accesses and
offsets above `u32::MAX` read as `0xff` bytes; otherwise the decoded
register's bytes.  Inside the guarded branch `offset as u32` is exact,
so the offset is passed through unchanged. -/
def PciConfigMmio.busRead {D : Type} (M : DeviceModel D)
    (m : PciConfigMmio D) (offset len : Nat) : List Nat :=
  let start := offset % 4
  if start + len > 4 ∨ offset > 0xffffffff then List.replicate len 0xff
  else
    let value := m.config_space_read M offset
    (List.range len).map fun i => (value >>> ((start + i) * 8)) % 256

/-- `<PciConfigMmio as BusDevice>::write`: returns `None` always (the
barrier from the device never leaves `config_space_write`). -/
def PciConfigMmio.busWrite {D : Type} (M : DeviceModel D)
    (m : PciConfigMmio D) (offset : Nat) (data : List Nat) :
    PciConfigMmio D × Option Nat × List BarReprogrammingParams :=
  if offset > 0xffffffff then (m, none, [])
  else
    let w := m.config_space_write M offset (offset % 4) data
    (w.1, none, w.2)

/-- `compose_cam`, following the spec's words: the CAM address built
from a (bus, device, function, register) tuple as
`(b << 16) | (d << 11) | (f << 8) | (r << 2)`. -/
def compose_cam (b d f r : Nat) : Nat :=
  (b <<< 16) ||| (d <<< 11) ||| (f <<< 8) ||| (r <<< 2)

/-- `compose_ecam`, following the spec's words: the ECAM offset built as
`(b << 20) | (d << 15) | (f << 12) | (r << 2)`. -/
def compose_ecam (b d f r : Nat) : Nat :=
  (b <<< 20) ||| (d <<< 15) ||| (f <<< 12) ||| (r <<< 2)

/-- A concrete device instantiation used for evaluating the model:
its state is a `Nat`, reads return the state, writes store the register
index and produce no BAR moves and no barrier. -/
def trivialModel : DeviceModel Nat :=
  { read_config_register := fun d _ => d
    write_config_register := fun _ reg _ _ => (reg, [], none) }

instance instDecEqExcept {ε α : Type} [DecidableEq ε] [DecidableEq α] :
    DecidableEq (Except ε α) := fun x y =>
  match x, y with
  | .ok a, .ok b =>
    if h : a = b then isTrue (by rw [h]) else isFalse (by simp [h])
  | .error a, .error b =>
    if h : a = b then isTrue (by rw [h]) else isFalse (by simp [h])
  | .ok _, .error _ => isFalse (by simp)
  | .error _, .ok _ => isFalse (by simp)

theorem lor_shiftRight_distrib (x y k : Nat) :
    (x ||| y) >>> k = (x >>> k) ||| (y >>> k) := by
  apply Nat.eq_of_testBit_eq
  intro j
  simp [Nat.testBit_lor, Nat.testBit_shiftRight]

theorem lor_and_distrib (x y m : Nat) :
    (x ||| y) &&& m = (x &&& m) ||| (y &&& m) := by
  apply Nat.eq_of_testBit_eq
  intro j
  simp [Nat.testBit_land, Nat.testBit_lor, Bool.and_or_distrib_right]

theorem field_elim (n m k v : Nat) (h : m = 2 ^ k - 1) (hv : n % 2 ^ k = v) :
    n &&& m = v := by
  rw [h, Nat.and_pow_two_sub_one_eq_mod, hv]

theorem cam_roundtrip (b d f r : Nat) (hb : b < 256) (hd : d < 32) (hf : f < 8)
    (hr : r < 64) : parse_io_config_address (compose_cam b d f r) = (b, d, f, r) := by
  unfold parse_io_config_address compose_cam shift_and_mask
  have e16 : ∀ x : Nat, x <<< 16 = x * 65536 := fun x => by rw [Nat.shiftLeft_eq]
  have e11 : ∀ x : Nat, x <<< 11 = x * 2048 := fun x => by rw [Nat.shiftLeft_eq]
  have e8 : ∀ x : Nat, x <<< 8 = x * 256 := fun x => by rw [Nat.shiftLeft_eq]
  have e2 : ∀ x : Nat, x <<< 2 = x * 4 := fun x => by rw [Nat.shiftLeft_eq]
  rw [e16, e11, e8, e2]
  have hsd : ∀ x k : Nat, x >>> k = x / 2 ^ k := fun x k => Nat.shiftRight_eq_div_pow x k
  refine Prod.ext ?_ (Prod.ext ?_ (Prod.ext ?_ ?_)) <;>
      simp only [lor_shiftRight_distrib] <;> simp only [hsd] <;> simp only [lor_and_distrib]
  · rw [field_elim (b * 65536 / 2 ^ 16) 255 8 b (by norm_num) (by omega),
        field_elim (d * 2048 / 2 ^ 16) 255 8 0 (by norm_num) (by omega),
        field_elim (f * 256 / 2 ^ 16) 255 8 0 (by norm_num) (by omega),
        field_elim (r * 4 / 2 ^ 16) 255 8 0 (by norm_num) (by omega)]
    simp
  · rw [field_elim (b * 65536 / 2 ^ 11) 31 5 0 (by norm_num) (by omega),
        field_elim (d * 2048 / 2 ^ 11) 31 5 d (by norm_num) (by omega),
        field_elim (f * 256 / 2 ^ 11) 31 5 0 (by norm_num) (by omega),
        field_elim (r * 4 / 2 ^ 11) 31 5 0 (by norm_num) (by omega)]
    simp
  · rw [field_elim (b * 65536 / 2 ^ 8) 7 3 0 (by norm_num) (by omega),
        field_elim (d * 2048 / 2 ^ 8) 7 3 0 (by norm_num) (by omega),
        field_elim (f * 256 / 2 ^ 8) 7 3 f (by norm_num) (by omega),
        field_elim (r * 4 / 2 ^ 8) 7 3 0 (by norm_num) (by omega)]
    simp
  · rw [field_elim (b * 65536 / 2 ^ 2) 63 6 0 (by norm_num) (by omega),
        field_elim (d * 2048 / 2 ^ 2) 63 6 0 (by norm_num) (by omega),
        field_elim (f * 256 / 2 ^ 2) 63 6 0 (by norm_num) (by omega),
        field_elim (r * 4 / 2 ^ 2) 63 6 r (by norm_num) (by omega)]
    simp

theorem ecam_roundtrip (b d f r : Nat) (hb : b < 256) (hd : d < 32) (hf : f < 8)
    (hr : r < 1024) : parse_mmio_config_address (compose_ecam b d f r) = (b, d, f, r) := by
  unfold parse_mmio_config_address compose_ecam shift_and_mask
  have e20 : ∀ x : Nat, x <<< 20 = x * 1048576 := fun x => by rw [Nat.shiftLeft_eq]
  have e15 : ∀ x : Nat, x <<< 15 = x * 32768 := fun x => by rw [Nat.shiftLeft_eq]
  have e12 : ∀ x : Nat, x <<< 12 = x * 4096 := fun x => by rw [Nat.shiftLeft_eq]
  have e2 : ∀ x : Nat, x <<< 2 = x * 4 := fun x => by rw [Nat.shiftLeft_eq]
  rw [e20, e15, e12, e2]
  have hsd : ∀ x k : Nat, x >>> k = x / 2 ^ k := fun x k => Nat.shiftRight_eq_div_pow x k
  refine Prod.ext ?_ (Prod.ext ?_ (Prod.ext ?_ ?_)) <;>
      simp only [lor_shiftRight_distrib] <;> simp only [hsd] <;> simp only [lor_and_distrib]
  · rw [field_elim (b * 1048576 / 2 ^ 20) 255 8 b (by norm_num) (by omega),
        field_elim (d * 32768 / 2 ^ 20) 255 8 0 (by norm_num) (by omega),
        field_elim (f * 4096 / 2 ^ 20) 255 8 0 (by norm_num) (by omega),
        field_elim (r * 4 / 2 ^ 20) 255 8 0 (by norm_num) (by omega)]
    simp
  · rw [field_elim (b * 1048576 / 2 ^ 15) 31 5 0 (by norm_num) (by omega),
        field_elim (d * 32768 / 2 ^ 15) 31 5 d (by norm_num) (by omega),
        field_elim (f * 4096 / 2 ^ 15) 31 5 0 (by norm_num) (by omega),
        field_elim (r * 4 / 2 ^ 15) 31 5 0 (by norm_num) (by omega)]
    simp
  · rw [field_elim (b * 1048576 / 2 ^ 12) 7 3 0 (by norm_num) (by omega),
        field_elim (d * 32768 / 2 ^ 12) 7 3 0 (by norm_num) (by omega),
        field_elim (f * 4096 / 2 ^ 12) 7 3 f (by norm_num) (by omega),
        field_elim (r * 4 / 2 ^ 12) 7 3 0 (by norm_num) (by omega)]
    simp
  · rw [field_elim (b * 1048576 / 2 ^ 2) 1023 10 0 (by norm_num) (by omega),
        field_elim (d * 32768 / 2 ^ 2) 1023 10 0 (by norm_num) (by omega),
        field_elim (f * 4096 / 2 ^ 2) 1023 10 0 (by norm_num) (by omega),
        field_elim (r * 4 / 2 ^ 2) 1023 10 r (by norm_num) (by omega)]
    simp
theorem nextFree_eq_some : ∀ {l : List Bool} {i : Nat} {l' : List Bool},
    nextFree l = some (i, l') →
    l[i]? = some false ∧ (∀ j, j < i → l[j]? = some true) ∧ l' = l.set i true := by
  intro l
  induction l with
  | nil => intro i l' h; simp [nextFree] at h
  | cons b rest ih =>
    intro i l' h
    by_cases hb : b
    · subst hb
      rw [nextFree, if_pos rfl] at h
      cases hnf : nextFree rest with
      | none => rw [hnf] at h; simp at h
      | some pr =>
        obtain ⟨i', rest'⟩ := pr
        rw [hnf] at h
        simp only [Option.some.injEq, Prod.mk.injEq] at h
        obtain ⟨hi, hl'⟩ := h
        obtain ⟨h1, h2, h3⟩ := ih hnf
        subst hi hl' h3
        refine ⟨by simpa using h1, ?_, by simp⟩
        intro j hj
        cases j with
        | zero => simp
        | succ j' => simpa using h2 j' (by omega)
    · have hb' : b = false := by simpa using hb
      subst hb'
      rw [nextFree, if_neg (by simp)] at h
      simp only [Option.some.injEq, Prod.mk.injEq] at h
      obtain ⟨hi, hl'⟩ := h
      subst hl'
      refine ⟨?_, ?_, ?_⟩
      · rw [← hi]; simp
      · intro j hj; omega
      · rw [← hi]; simp

theorem nextFree_of : ∀ {l : List Bool} {s : Nat}, l[s]? = some false →
    (∀ j, j < s → l[j]? = some true) → nextFree l = some (s, l.set s true) := by
  intro l
  induction l with
  | nil => intro s h _; simp at h
  | cons b rest ih =>
    intro s h hall
    cases s with
    | zero =>
      simp at h
      subst h
      rw [nextFree, if_neg (by simp)]
      simp
    | succ s' =>
      have hb : b = true := by simpa using hall 0 (by omega)
      subst hb
      rw [nextFree, if_pos rfl]
      rw [ih (by simpa using h) (fun j hj => by simpa using hall (j + 1) (by omega))]
      simp

theorem nextFree_all_true : ∀ {l : List Bool}, (∀ b ∈ l, b = true) → nextFree l = none := by
  intro l
  induction l with
  | nil => intro _; rfl
  | cons b rest ih =>
    intro h
    have hb : b = true := h b (by simp)
    subst hb
    rw [nextFree, if_pos rfl, ih fun x hx => h x (by simp [hx])]

theorem count_true_set_true : ∀ {l : List Bool} {i : Nat}, l[i]? = some false →
    (l.set i true).count true = l.count true + 1 := by
  intro l
  induction l with
  | nil => intro i h; simp at h
  | cons b rest ih =>
    intro i h
    cases i with
    | zero =>
      simp at h
      subst h
      simp [List.count_cons]
    | succ i' =>
      have hr := ih (by simpa using h)
      show (b :: rest.set i' true).count true = (b :: rest).count true + 1
      simp only [List.count_cons, hr]
      omega

theorem count_true_set_false : ∀ {l : List Bool} {i : Nat}, l[i]? = some true →
    (l.set i false).count true + 1 = l.count true := by
  intro l
  induction l with
  | nil => intro i h; simp at h
  | cons b rest ih =>
    intro i h
    cases i with
    | zero =>
      simp at h
      subst h
      simp [List.count_cons]
    | succ i' =>
      have hr := ih (by simpa using h)
      show (b :: rest.set i' false).count true + 1 = (b :: rest).count true
      simp only [List.count_cons]
      omega

theorem mapInsert_length_of_fresh {D : Type} :
    ∀ {l : List (Nat × Nat × D)} {key tag : Nat} {dev : D},
    mapGet l key = none → (mapInsert key tag dev l).length = l.length + 1 := by
  intro l
  induction l with
  | nil => intro key tag dev _; rfl
  | cons e rest ih =>
    intro key tag dev h
    obtain ⟨k, t, d⟩ := e
    rw [mapGet] at h
    by_cases hk : key = k
    · rw [if_pos hk] at h; simp at h
    · rw [if_neg hk] at h
      rw [mapInsert, if_neg hk]
      simp [ih h]

theorem filter_ne_tag_length {D : Type} :
    ∀ {l : List (Nat × Nat × D)} {tag : Nat},
    l.countP (fun e => e.2.1 == tag) = 1 →
    (l.filter fun e => e.2.1 != tag).length + 1 = l.length := by
  intro l
  induction l with
  | nil => intro tag h; simp at h
  | cons e rest ih =>
    intro tag h
    rw [List.countP_cons] at h
    by_cases he : e.2.1 == tag
    · have h0 : rest.countP (fun e => e.2.1 == tag) = 0 := by
        rw [if_pos he] at h; omega
      have hall : (rest.filter fun e => e.2.1 != tag) = rest := by
        rw [List.filter_eq_self]
        intro a ha
        have := List.countP_eq_zero.mp h0 a ha
        simpa using this
      rw [List.filter_cons_of_neg (by simpa using he)]
      rw [hall]
      simp
    · have h1 : rest.countP (fun e => e.2.1 == tag) = 1 := by
        rw [if_neg he] at h; omega
      rw [List.filter_cons_of_pos (by simpa using he)]
      simp [ih h1]

theorem next_device_id_ok {D : Type} {bus : PciBus D} {i : Nat} {bus' : PciBus D}
    (h : bus.next_device_id = (Except.ok i, bus')) :
    bus.device_ids[i]? = some false
    ∧ (∀ j, j < i → bus.device_ids[j]? = some true)
    ∧ bus'.device_ids = bus.device_ids.set i true
    ∧ bus'.devices = bus.devices := by
  rw [PciBus.next_device_id] at h
  cases hnf : nextFree bus.device_ids with
  | none => rw [hnf] at h; simp at h
  | some pr =>
    obtain ⟨idx, ids'⟩ := pr
    rw [hnf] at h
    simp only [Prod.mk.injEq, Except.ok.injEq] at h
    obtain ⟨hi, hb⟩ := h
    subst hi
    obtain ⟨h1, h2, h3⟩ := nextFree_eq_some hnf
    subst h3
    rw [← hb]
    exact ⟨h1, h2, rfl, rfl⟩

/-- C3 (amended): `new` establishes the slot invariant (the number of
true occupancy flags equals the size of the device map), and the
invariant is preserved by the paired operations: `next_device_id`
returning slot `i` followed by `add_device` at the (map-fresh) slot `i`,
and `remove_by_device` of a handle occurring exactly once followed by
`put_device_id` of that device's slot.  (The individual operations do
not preserve it, see the counterexample.) -/
theorem c3_slot_invariant_paired {D : Type}
    (root_tag : Nat) (root : D)
    (busA : PciBus D) (i : Nat) (busA' : PciBus D) (tagA : Nat) (devA : D)
    (hA : busA.device_ids.count true = busA.devices.length)
    (hnext : busA.next_device_id = (Except.ok i, busA'))
    (hfresh : mapGet busA.devices i = none)
    (busB : PciBus D) (s tagB : Nat)
    (hB : busB.device_ids.count true = busB.devices.length)
    (hs : busB.device_ids[s]? = some true)
    (hone : busB.devices.countP (fun e => e.2.1 == tagB) = 1)
    (hlt : s < NUM_DEVICE_IDS) :
    ((PciBus.new root_tag root).device_ids.count true
        = (PciBus.new root_tag root).devices.length)
    ∧ ((busA'.add_device i tagA devA).2.device_ids.count true
        = (busA'.add_device i tagA devA).2.devices.length)
    ∧ (((busB.remove_by_device tagB).2.put_device_id s).2.device_ids.count true
        = ((busB.remove_by_device tagB).2.put_device_id s).2.devices.length) := by
  obtain ⟨h1, h2, h3, h4⟩ := next_device_id_ok hnext
  refine ⟨by simp [PciBus.new, mapInsert, NUM_DEVICE_IDS], ?_, ?_⟩
  · show ({ busA' with devices := mapInsert i tagA devA busA'.devices }).device_ids.count true
        = (mapInsert i tagA devA busA'.devices).length
    rw [h4] at *
    rw [h3]
    rw [count_true_set_true h1]
    rw [mapInsert_length_of_fresh (by rw [h4]; exact hfresh)]
    omega
  · rw [PciBus.put_device_id, if_pos hlt]
    show ((busB.remove_by_device tagB).2.device_ids.set s false).count true
        = ((busB.remove_by_device tagB).2.devices).length
    rw [PciBus.remove_by_device]
    show ((busB.device_ids.set s false).count true)
        = (busB.devices.filter fun e => e.2.1 != tagB).length
    have := count_true_set_false hs
    have := filter_ne_tag_length hone
    omega

/-- C6: `next_device_id` returns the smallest slot index whose occupancy
flag is false and marks it occupied; on a freshly constructed bus three
successive calls return 1, 2, 3; when all flags are true it fails with
`NoPciDeviceSlotAvailable` leaving the bus unchanged; and after
`put_device_id s`, if `s` is the lowest free slot, the next call
returns `s`. -/
theorem c6_next_device_id_spec {D : Type}
    (bus : PciBus D) (i : Nat) (bus' : PciBus D)
    (h : bus.next_device_id = (Except.ok i, bus'))
    (busF : PciBus D) (hF : ∀ b ∈ busF.device_ids, b = true)
    (root_tag : Nat) (root : D)
    (busP : PciBus D) (s : Nat) (hs : s < NUM_DEVICE_IDS)
    (hsin : s < busP.device_ids.length)
    (hlow : ∀ j, j < s → busP.device_ids[j]? = some true) :
    (bus.device_ids[i]? = some false
      ∧ (∀ j, j < i → bus.device_ids[j]? = some true)
      ∧ bus'.device_ids = bus.device_ids.set i true
      ∧ bus'.devices = bus.devices)
    ∧ ((PciBus.new root_tag root).next_device_id.1 = Except.ok 1
      ∧ ((PciBus.new root_tag root).next_device_id.2.next_device_id).1 = Except.ok 2
      ∧ (((PciBus.new root_tag root).next_device_id.2.next_device_id).2.next_device_id).1
          = Except.ok 3)
    ∧ (busF.next_device_id = (Except.error PciRootError.NoPciDeviceSlotAvailable, busF))
    ∧ (((busP.put_device_id s).2.next_device_id).1 = Except.ok s) := by
  refine ⟨next_device_id_ok h, ⟨rfl, rfl, rfl⟩, ?_, ?_⟩
  · rw [PciBus.next_device_id, nextFree_all_true hF]
  · rw [PciBus.put_device_id, if_pos hs]
    show (PciBus.next_device_id { busP with device_ids := busP.device_ids.set s false }).1
        = Except.ok s
    rw [PciBus.next_device_id]
    have hset : (busP.device_ids.set s false)[s]? = some false := by
      rw [List.getElem?_set_self (by simpa using hsin)]
    have hlow' : ∀ j, j < s → (busP.device_ids.set s false)[j]? = some true := by
      intro j hj
      rw [List.getElem?_set_ne (by omega)]
      exact hlow j hj
    rw [nextFree_of hset hlow']

/-- C10: `put_device_id s` mutates only the occupancy flag of slot `s`
and never touches the device map, so CAM and ECAM configuration reads
still reach the same device afterwards. -/
theorem c10_put_device_id_frame {D : Type} (M : DeviceModel D) (bus : PciBus D) (s a c : Nat) :
    ((bus.put_device_id s).2.devices = bus.devices)
    ∧ (PciConfigIo.config_space_read M
          { config_address := a, pci_bus := (bus.put_device_id s).2 }
        = PciConfigIo.config_space_read M { config_address := a, pci_bus := bus })
    ∧ (PciConfigMmio.config_space_read M { pci_bus := (bus.put_device_id s).2 } c
        = PciConfigMmio.config_space_read M { pci_bus := bus } c) := by
  have hdev : (bus.put_device_id s).2.devices = bus.devices := by
    rw [PciBus.put_device_id]
    split <;> rfl
  refine ⟨hdev, ?_, ?_⟩
  · rw [PciConfigIo.config_space_read, PciConfigIo.config_space_read]
    simp only [hdev]
  · rw [PciConfigMmio.config_space_read, PciConfigMmio.config_space_read]
    simp only [hdev]
/-- C2 (amended): if the decoded bus is nonzero, reads return
0xFFFF_FFFF and writes are no-ops (no device call, no BAR move) on both
the CAM and the ECAM façade; if the decoded function is nonzero a CAM
read returns 0xFFFF_FFFF.  (CAM writes and ECAM accesses ignore the
function field, see the counterexample.) -/
theorem c2_single_bus_policy {D : Type} (M : DeviceModel D)
    (io : PciConfigIo D) (offsetW : Nat) (dataW : List Nat)
    (mm : PciConfigMmio D) (c offM : Nat) (dataM : List Nat)
    (io2 : PciConfigIo D)
    (hbus : (parse_io_config_address (io.config_address &&& 0x7fffffff)).1 ≠ 0)
    (hbusM : (parse_mmio_config_address c).1 ≠ 0)
    (hfn : (parse_io_config_address (io2.config_address &&& 0x7fffffff)).2.2.1 ≠ 0) :
    (io.config_space_read M = 0xffffffff)
    ∧ (io.config_space_write M offsetW dataW = (io, none, []))
    ∧ (PciConfigMmio.config_space_read M mm c = 0xffffffff)
    ∧ (mm.config_space_write M c offM dataM = (mm, []))
    ∧ (io2.config_space_read M = 0xffffffff) := by
  refine ⟨?_, ?_, ?_, ?_, ?_⟩
  · by_cases he : io.config_address &&& 0x80000000 = 0
    · simp [PciConfigIo.config_space_read, he]
    · simp [PciConfigIo.config_space_read, he, hbus]
  · by_cases h4 : offsetW + dataW.length > 4
    · simp [PciConfigIo.config_space_write, h4]
    · by_cases he : io.config_address &&& 0x80000000 = 0
      · simp [PciConfigIo.config_space_write, h4, he]
      · simp [PciConfigIo.config_space_write, h4, he, hbus]
  · simp [PciConfigMmio.config_space_read, hbusM]
  · by_cases h4 : offM + dataM.length > 4
    · simp [PciConfigMmio.config_space_write, h4]
    · simp [PciConfigMmio.config_space_write, h4, hbusM]
  · by_cases he : io2.config_address &&& 0x80000000 = 0
    · simp [PciConfigIo.config_space_read, he]
    · by_cases hb2 : (parse_io_config_address (io2.config_address &&& 0x7fffffff)).1 = 0
      · simp [PciConfigIo.config_space_read, he, hb2, Nat.pos_of_ne_zero hfn]
      · simp [PciConfigIo.config_space_read, he, hb2]

theorem map_range_const {α : Type} (f : Nat → α) (len : Nat) (v : α)
    (h : ∀ i, i < len → f i = v) : (List.range len).map f = List.replicate len v := by
  refine List.eq_replicate_iff.mpr ⟨by simp, ?_⟩
  intro b hb
  obtain ⟨i, hi, rfl⟩ := List.mem_map.mp hb
  exact h i (List.mem_range.mp hi)

theorem ffff_byte (k : Nat) (hk : k ≤ 3) : (0xffffffff >>> (k * 8)) % 256 = 0xff := by
  rw [Nat.shiftRight_eq_div_pow]
  interval_cases k <;> decide

/-- C4: whenever bit 31 of the CAM address latch is clear, a read of the
data window (port offsets 4–7) yields only 0xFF bytes (the value
0xFFFF_FFFF), and a write to it is ignored: no state change, no barrier,
no BAR move — for every latch value and every bus population. -/
theorem c4_disabled_gating {D : Type} (M : DeviceModel D) (io : PciConfigIo D)
    (offR lenR offW : Nat) (data : List Nat)
    (hdis : io.config_address &&& 0x80000000 = 0)
    (hR4 : 4 ≤ offR) (hR7 : offR ≤ 7) (hW4 : 4 ≤ offW) (hW7 : offW ≤ 7) :
    (io.config_space_read M = 0xffffffff)
    ∧ (io.busRead M offR lenR = List.replicate lenR 0xff)
    ∧ (io.busWrite M offW data = (io, none, [])) := by
  have hread : io.config_space_read M = 0xffffffff := by
    simp [PciConfigIo.config_space_read, hdis]
  refine ⟨hread, ?_, ?_⟩
  · rw [PciConfigIo.busRead]
    simp only [show ¬(offR ≤ 3) from by omega, if_false, show offR ≤ 7 from hR7, if_true, hread]
    by_cases hb : offR % 4 + lenR ≤ 4
    · rw [if_pos hb]
      exact map_range_const _ _ _ fun i hi => ffff_byte (offR % 4 + i) (by omega)
    · rw [if_neg hb]
  · rw [PciConfigIo.busWrite]
    rw [if_neg (by omega), if_pos hW7]
    by_cases h4 : offW - 4 + data.length > 4
    · simp [PciConfigIo.config_space_write, h4]
    · simp [PciConfigIo.config_space_write, h4, hdis]

/-- C7: a CAM data-window write that reaches a device returns exactly
the optional barrier produced by that device's `write_config_register`,
while an ECAM write always returns no barrier, for every device model
and every write. -/
theorem c7_barrier_propagation {D : Type} (M : DeviceModel D) (io : PciConfigIo D)
    (offset : Nat) (data : List Nat) (tag : Nat) (d : D)
    (h4 : offset + data.length ≤ 4)
    (hen : io.config_address &&& 0x80000000 ≠ 0)
    (hbus : (parse_io_config_address (io.config_address &&& 0x7fffffff)).1 = 0)
    (hdev : mapGet io.pci_bus.devices
        (parse_io_config_address (io.config_address &&& 0x7fffffff)).2.1 = some (tag, d))
    (mm : PciConfigMmio D) (offM : Nat) (dataM : List Nat) :
    ((io.config_space_write M offset data).2.1
      = (M.write_config_register d
          (parse_io_config_address (io.config_address &&& 0x7fffffff)).2.2.2
          offset data).2.2)
    ∧ (mm.busWrite M offM dataM).2.1 = none := by
  constructor
  · simp [PciConfigIo.config_space_write, show ¬(offset + data.length > 4) from by omega,
      hen, hbus, hdev]
  · rw [PciConfigMmio.busWrite]
    split
    · rfl
    · rfl

/-- C8: for every enabled bus-0 configuration cycle whose decoded device
slot has no entry in the device map, a read returns 0xFFFF_FFFF and a
write is silently dropped with all state unchanged, on both the CAM and
ECAM façades. -/
theorem c8_missing_device_defaults {D : Type} (M : DeviceModel D)
    (io : PciConfigIo D) (offset : Nat) (data : List Nat)
    (hen : io.config_address &&& 0x80000000 ≠ 0)
    (hbus : (parse_io_config_address (io.config_address &&& 0x7fffffff)).1 = 0)
    (habs : mapGet io.pci_bus.devices
        (parse_io_config_address (io.config_address &&& 0x7fffffff)).2.1 = none)
    (mm : PciConfigMmio D) (c offM : Nat) (dataM : List Nat)
    (hbusM : (parse_mmio_config_address c).1 = 0)
    (habsM : mapGet mm.pci_bus.devices (parse_mmio_config_address c).2.1 = none) :
    (io.config_space_read M = 0xffffffff)
    ∧ (io.config_space_write M offset data = (io, none, []))
    ∧ (PciConfigMmio.config_space_read M mm c = 0xffffffff)
    ∧ (mm.config_space_write M c offM dataM = (mm, [])) := by
  refine ⟨?_, ?_, ?_, ?_⟩
  · by_cases hf : (parse_io_config_address (io.config_address &&& 0x7fffffff)).2.2.1 > 0
    · simp [PciConfigIo.config_space_read, hen, hbus, hf]
    · simp [PciConfigIo.config_space_read, hen, hbus, hf, habs]
  · by_cases h4 : offset + data.length > 4
    · simp [PciConfigIo.config_space_write, h4]
    · simp [PciConfigIo.config_space_write, h4, hen, hbus, habs]
  · simp [PciConfigMmio.config_space_read, hbusM, habsM]
  · by_cases h4 : offM + dataM.length > 4
    · simp [PciConfigMmio.config_space_write, h4]
    · simp [PciConfigMmio.config_space_write, h4, hbusM, habsM]

/-- C9: an ECAM read whose offset exceeds `u32::MAX`, or whose offset
modulo 4 plus buffer length exceeds 4, fills the entire output buffer
with 0xFF bytes; an ECAM write under the same conditions is ignored
with no state change. -/
theorem c9_ecam_boundary_behaviour {D : Type} (M : DeviceModel D)
    (mm : PciConfigMmio D) (offset len : Nat) (data : List Nat)
    (hr : offset > 0xffffffff ∨ offset % 4 + len > 4)
    (hw : offset > 0xffffffff ∨ offset % 4 + data.length > 4) :
    (mm.busRead M offset len = List.replicate len 0xff)
    ∧ (mm.busWrite M offset data = (mm, none, [])) := by
  constructor
  · rw [PciConfigMmio.busRead]
    rw [if_pos hr.symm]
  · by_cases hmax : offset > 0xffffffff
    · simp [PciConfigMmio.busWrite, hmax]
    · have h4 : offset % 4 + data.length > 4 := hw.resolve_left hmax
      simp [PciConfigMmio.busWrite, hmax, PciConfigMmio.config_space_write, h4]

/-- C5: decoding the CAM address composed as
`(b << 16) | (d << 11) | (f << 8) | (r << 2)` yields exactly
`(b, d, f, r)` for every valid tuple (register in the 6-bit range), and
decoding the ECAM offset composed as
`(b << 20) | (d << 15) | (f << 12) | (r << 2)` yields exactly
`(b, d, f, r)` (register in the 10-bit range). -/
theorem c5_decode_compose_roundtrip (b d f r q : Nat)
    (hb : b < 256) (hd : d < 32) (hf : f < 8) (hr : r < 64) (hq : q < 1024) :
    parse_io_config_address (compose_cam b d f r) = (b, d, f, r)
    ∧ parse_mmio_config_address (compose_ecam b d f q) = (b, d, f, q) :=
  ⟨cam_roundtrip b d f r hb hd hf hr, ecam_roundtrip b d f q hb hd hf hq⟩

/-- C1: evaluation of `set_config_address` at the claim's failing input.
Two 2-byte writes at latch offsets 0 and 2 carrying bytes 01 02 03 04
leave the latch at 0x0403 — the second word lands at bits 0..15 because
the source shifts by `offset * 16` and the `u32` shift amount 32 wraps
to 0 — whereas a single 4-byte write of the same bytes yields
0x04030201.  A 2-byte write at offset 1 lands at bits 16..31 instead of
bits 8..23 for the same reason. -/
theorem c1_set_config_address_word_bug :
    ((PciConfigIo.set_config_address
        (PciConfigIo.set_config_address
          { config_address := 0, pci_bus := PciBus.new 0 (0 : Nat) } 0 [0x01, 0x02])
        2 [0x03, 0x04]).config_address = 0x0403)
    ∧ ((PciConfigIo.set_config_address
          { config_address := 0, pci_bus := PciBus.new 0 (0 : Nat) } 0
          [0x01, 0x02, 0x03, 0x04]).config_address = 0x04030201)
    ∧ ((0x0403 : Nat) ≠ 0x04030201)
    ∧ ((PciConfigIo.set_config_address
          { config_address := 0, pci_bus := PciBus.new 0 (0 : Nat) } 1
          [0x01, 0x02]).config_address = 0x02010000) := by decide

/-- C2 counterexample: an ECAM read at address 0x1000 decodes to bus 0,
device 0, function 1; with the host-bridge device present (register
reads returning 5) the read returns the device's value, not
0xFFFF_FFFF, so "function ≠ 0 implies 0xFFFF_FFFF on both façades" is
false as stated. -/
theorem c2_function_ignored_counterexample :
    ((parse_mmio_config_address 0x1000).1 = 0)
    ∧ ((parse_mmio_config_address 0x1000).2.2.1 = 1)
    ∧ (PciConfigMmio.config_space_read trivialModel
        { pci_bus := PciBus.new 7 (5 : Nat) } 0x1000 = 5)
    ∧ ((5 : Nat) ≠ 0xffffffff) := by decide

/-- C3 counterexample: on a freshly constructed bus a single
`next_device_id` call leaves 2 true flags but only 1 device-map entry,
so the claim that every individual `PciBus` operation preserves the
equality is false. -/
theorem c3_slot_invariant_counterexample :
    ((PciBus.new 0 (0 : Nat)).device_ids.count true
      = (PciBus.new 0 (0 : Nat)).devices.length)
    ∧ ((PciBus.new 0 (0 : Nat)).next_device_id.2.device_ids.count true = 2)
    ∧ ((PciBus.new 0 (0 : Nat)).next_device_id.2.devices.length = 1)
    ∧ ¬((PciBus.new 0 (0 : Nat)).next_device_id.2.device_ids.count true
        = (PciBus.new 0 (0 : Nat)).next_device_id.2.devices.length) := by decide

theorem c2_single_bus_policy_witness :
    (PciConfigIo.config_space_read trivialModel
        { config_address := 0x80010000, pci_bus := PciBus.new 0 (0 : Nat) } = 0xffffffff)
    ∧ (PciConfigIo.config_space_write trivialModel
        { config_address := 0x80010000, pci_bus := PciBus.new 0 (0 : Nat) } 0 [1]
        = ({ config_address := 0x80010000, pci_bus := PciBus.new 0 (0 : Nat) }, none, []))
    ∧ (PciConfigMmio.config_space_read trivialModel
        { pci_bus := PciBus.new 0 (0 : Nat) } 0x100000 = 0xffffffff)
    ∧ (PciConfigMmio.config_space_write trivialModel
        { pci_bus := PciBus.new 0 (0 : Nat) } 0x100000 0 [1]
        = ({ pci_bus := PciBus.new 0 (0 : Nat) }, []))
    ∧ (PciConfigIo.config_space_read trivialModel
        { config_address := 0x80000100, pci_bus := PciBus.new 0 (0 : Nat) } = 0xffffffff) :=
  c2_single_bus_policy trivialModel
    { config_address := 0x80010000, pci_bus := PciBus.new 0 (0 : Nat) } 0 [1]
    { pci_bus := PciBus.new 0 (0 : Nat) } 0x100000 0 [1]
    { config_address := 0x80000100, pci_bus := PciBus.new 0 (0 : Nat) }
    (by decide) (by decide) (by decide)

theorem c3_slot_invariant_paired_witness :
    ((PciBus.new 0 (0 : Nat)).device_ids.count true
      = (PciBus.new 0 (0 : Nat)).devices.length)
    ∧ ((((PciBus.new 0 (0 : Nat)).next_device_id.2).add_device 1 3 7).2.device_ids.count true
      = (((PciBus.new 0 (0 : Nat)).next_device_id.2).add_device 1 3 7).2.devices.length)
    ∧ ((((PciBus.new 5 (9 : Nat)).remove_by_device 5).2.put_device_id 0).2.device_ids.count true
      = (((PciBus.new 5 (9 : Nat)).remove_by_device 5).2.put_device_id 0).2.devices.length) :=
  c3_slot_invariant_paired 0 0 (PciBus.new 0 0) 1 ((PciBus.new 0 (0 : Nat)).next_device_id.2)
    3 7 (by decide) rfl (by decide) (PciBus.new 5 9) 0 5
    (by decide) (by decide) (by decide) (by decide)

theorem c4_disabled_gating_witness :
    (PciConfigIo.config_space_read trivialModel
        { config_address := 0, pci_bus := PciBus.new 0 (0 : Nat) } = 0xffffffff)
    ∧ (PciConfigIo.busRead trivialModel
        { config_address := 0, pci_bus := PciBus.new 0 (0 : Nat) } 4 4
        = List.replicate 4 0xff)
    ∧ (PciConfigIo.busWrite trivialModel
        { config_address := 0, pci_bus := PciBus.new 0 (0 : Nat) } 5 [1, 2]
        = ({ config_address := 0, pci_bus := PciBus.new 0 (0 : Nat) }, none, [])) :=
  c4_disabled_gating trivialModel
    { config_address := 0, pci_bus := PciBus.new 0 (0 : Nat) } 4 4 5 [1, 2]
    (by decide) (by decide) (by decide) (by decide) (by decide)

theorem c5_decode_compose_roundtrip_witness :
    parse_io_config_address (compose_cam 0xab 17 5 33) = (0xab, 17, 5, 33)
    ∧ parse_mmio_config_address (compose_ecam 0xab 17 5 777) = (0xab, 17, 5, 777) :=
  c5_decode_compose_roundtrip 0xab 17 5 33 777
    (by decide) (by decide) (by decide) (by decide) (by decide)

theorem c6_next_device_id_spec_witness :
    ((PciBus.new 0 (0 : Nat)).device_ids[1]? = some false
      ∧ (∀ j, j < 1 → (PciBus.new 0 (0 : Nat)).device_ids[j]? = some true)
      ∧ (PciBus.new 0 (0 : Nat)).next_device_id.2.device_ids
          = (PciBus.new 0 (0 : Nat)).device_ids.set 1 true
      ∧ (PciBus.new 0 (0 : Nat)).next_device_id.2.devices
          = (PciBus.new 0 (0 : Nat)).devices)
    ∧ ((PciBus.new 0 (0 : Nat)).next_device_id.1 = Except.ok 1
      ∧ ((PciBus.new 0 (0 : Nat)).next_device_id.2.next_device_id).1 = Except.ok 2
      ∧ (((PciBus.new 0 (0 : Nat)).next_device_id.2.next_device_id).2.next_device_id).1
          = Except.ok 3)
    ∧ (({ devices := [], device_ids := List.replicate 32 true } : PciBus Nat).next_device_id
        = (Except.error PciRootError.NoPciDeviceSlotAvailable,
           ({ devices := [], device_ids := List.replicate 32 true } : PciBus Nat)))
    ∧ ((((PciBus.new 0 (0 : Nat)).put_device_id 1).2.next_device_id).1 = Except.ok 1) :=
  c6_next_device_id_spec (PciBus.new 0 0) 1 ((PciBus.new 0 (0 : Nat)).next_device_id.2) rfl
    { devices := [], device_ids := List.replicate 32 true } (by decide)
    0 0 (PciBus.new 0 0) 1 (by decide) (by decide) (by decide)

theorem c7_barrier_propagation_witness :
    ((PciConfigIo.config_space_write trivialModel
        { config_address := 0x80000000, pci_bus := PciBus.new 7 (5 : Nat) }
        0 [1, 2, 3, 4]).2.1
      = (trivialModel.write_config_register 5
          (parse_io_config_address (0x80000000 &&& 0x7fffffff)).2.2.2 0 [1, 2, 3, 4]).2.2)
    ∧ (PciConfigMmio.busWrite trivialModel
        { pci_bus := PciBus.new 7 (5 : Nat) } 0 [9]).2.1 = none :=
  c7_barrier_propagation trivialModel
    { config_address := 0x80000000, pci_bus := PciBus.new 7 (5 : Nat) } 0 [1, 2, 3, 4] 7 5
    (by decide) (by decide) (by decide) (by decide)
    { pci_bus := PciBus.new 7 (5 : Nat) } 0 [9]

theorem c8_missing_device_defaults_witness :
    (PciConfigIo.config_space_read trivialModel
        { config_address := 0x80000800, pci_bus := PciBus.new 0 (0 : Nat) } = 0xffffffff)
    ∧ (PciConfigIo.config_space_write trivialModel
        { config_address := 0x80000800, pci_bus := PciBus.new 0 (0 : Nat) } 0 [1]
        = ({ config_address := 0x80000800, pci_bus := PciBus.new 0 (0 : Nat) }, none, []))
    ∧ (PciConfigMmio.config_space_read trivialModel
        { pci_bus := PciBus.new 0 (0 : Nat) } 0x8000 = 0xffffffff)
    ∧ (PciConfigMmio.config_space_write trivialModel
        { pci_bus := PciBus.new 0 (0 : Nat) } 0x8000 0 [1]
        = ({ pci_bus := PciBus.new 0 (0 : Nat) }, [])) :=
  c8_missing_device_defaults trivialModel
    { config_address := 0x80000800, pci_bus := PciBus.new 0 (0 : Nat) } 0 [1]
    (by decide) (by decide) (by decide)
    { pci_bus := PciBus.new 0 (0 : Nat) } 0x8000 0 [1]
    (by decide) (by decide)

theorem c9_ecam_boundary_behaviour_witness :
    (PciConfigMmio.busRead trivialModel
        { pci_bus := PciBus.new 0 (0 : Nat) } 3 4 = List.replicate 4 0xff)
    ∧ (PciConfigMmio.busWrite trivialModel
        { pci_bus := PciBus.new 0 (0 : Nat) } 3 [1, 2]
        = ({ pci_bus := PciBus.new 0 (0 : Nat) }, none, [])) :=
  c9_ecam_boundary_behaviour trivialModel
    { pci_bus := PciBus.new 0 (0 : Nat) } 3 4 [1, 2] (by decide) (by decide)
